import Mathlib

/-!
Verification development for the Tdarr Pauser control loop (src/pauser.py).

The script polls Jellyfin for active video sessions and pauses/resumes Tdarr
accordingly; on pause it cancels in-flight workers with a marker cause, and on
resume it re-queues error-table rows whose most recent report carries that
marker.  The definitions below are a shallow embedding of the script: JSON
payloads become an inductive value type, HTTP outcomes become explicit outcome
parameters, and exceptions become `Except` values that the embedded handlers
absorb exactly where the Python `try`/`except` blocks do.
-/

/-- A decoded JSON value as manipulated by the script.  Python `None` (both a
JSON `null` and the result of `dict.get` on an absent key) is `jnull`. -/
inductive JVal where
  | jnull : JVal
  | jbool : Bool → JVal
  | jstr : String → JVal
  | jnum : Int → JVal
  | jarr : List JVal → JVal
  | jobj : List (String × JVal) → JVal

/-- The fixed cancellation marker `TDARR_CANCEL_CAUSE` from the script. -/
def TDARR_CANCEL_CAUSE : String := "Paused by script due to Jellyfin activity"

/-- Python `d.get(key, default)`: the default is returned only when the key is
absent (a present `null` stays `null`); calling `.get` on a non-dict value
raises `AttributeError`, modelled as `.error ()`. -/
def pyDictGetD (v : JVal) (key : String) (dflt : JVal) : Except Unit JVal :=
  match v with
  | .jobj fields =>
      match fields.lookup key with
      | some x => Except.ok x
      | none => Except.ok dflt
  | _ => Except.error ()

/-- Python `x is False`: true exactly for the boolean `false` (an int `0` or a
null is not identical to `False`). -/
def pyIsFalse : JVal → Bool
  | JVal.jbool b => !b
  | _ => false

/-- Python `x == "Video"`: true exactly for the string `"Video"`. -/
def pyIsVideo : JVal → Bool
  | JVal.jstr m => m == "Video"
  | _ => false

/-- One iteration of the session loop in `jelly_active`: reads the diagnostic
fields, then `PlayState.IsPaused` and `NowPlayingItem.MediaType`, and decides
`is_paused is False and now_playing_media_type == "Video"`.  Any
`AttributeError` from `.get` on a non-dict propagates as `.error`. -/
def sessionActive (s : JVal) : Except Unit Bool := do
  let _client ← pyDictGetD s "Client" (JVal.jstr "Unknown")
  let _username ← pyDictGetD s "UserName" (JVal.jstr "Unknown")
  let play_state ← pyDictGetD s "PlayState" (JVal.jobj [])
  let is_paused ← pyDictGetD play_state "IsPaused" JVal.jnull
  let now_playing_item ← pyDictGetD s "NowPlayingItem" (JVal.jobj [])
  let media_type ← pyDictGetD now_playing_item "MediaType" JVal.jnull
  pure (pyIsFalse is_paused && pyIsVideo media_type)

/-- The `for s in sessions` loop of `jelly_active`: counts active sessions,
aborting with the first uncaught exception. -/
def countActiveList : List JVal → Except Unit Nat
  | [] => Except.ok 0
  | s :: rest =>
      match sessionActive s with
      | Except.error e => Except.error e
      | Except.ok a =>
          match countActiveList rest with
          | Except.error e => Except.error e
          | Except.ok n => Except.ok ((if a then 1 else 0) + n)

/-- The body of `jelly_active` applied to a decoded payload.  A JSON array is
iterated; an empty dict or empty string also iterates (zero times) because
Python happily runs `len` and `for` on them; every other shape raises before
or during the loop (`AttributeError` on `.get` for a string element,
`TypeError` on `len` for a scalar). -/
def jellyBodyCount (payload : JVal) : Except Unit Nat :=
  match payload with
  | .jarr sessions => countActiveList sessions
  | .jobj [] => Except.ok 0
  | .jstr "" => Except.ok 0
  | _ => Except.error ()

/-- Outcome of the `GET /Sessions` request as seen by `jelly_active`:
a `requests` exception (network failure, timeout, or an HTTP error status via
`raise_for_status`), a JSON decode failure, or a decoded payload. -/
inductive ProbeOutcome where
  | requestError : ProbeOutcome
  | jsonError : ProbeOutcome
  | ok : JVal → ProbeOutcome

/-- `jelly_active`: returns the active-session count, with every handler
(`RequestException`, JSON decode errors, and the blanket `except Exception`)
returning 0. -/
def jelly_active (o : ProbeOutcome) : Nat :=
  match o with
  | .requestError => 0
  | .jsonError => 0
  | .ok payload =>
      match jellyBodyCount payload with
      | Except.ok n => n
      | Except.error _ => 0

/-- Whether an outcome is one of the failure cases of the probe: a request
error, an undecodable body, or a decoded payload whose traversal raises. -/
def probeFailed (o : ProbeOutcome) : Bool :=
  match o with
  | .requestError => true
  | .jsonError => true
  | .ok payload =>
      match jellyBodyCount payload with
      | Except.ok _ => false
      | Except.error _ => true

/-- The session's nested field at `outer.inner`, or `none` when any step of
the path is absent or not a mapping. -/
def sessionField (s : JVal) (outer inner : String) : Option JVal :=
  match s with
  | .jobj fields =>
      match fields.lookup outer with
      | some (.jobj o) => o.lookup inner
      | _ => none
  | _ => none

/-- Spec-side predicate, following the spec's words for C3: a session is
active iff its `isPaused` field is exactly the boolean `false` and its
`nowPlayingMediaType` field is exactly the string `"Video"`; any absent,
null, or otherwise-valued field makes it inactive. -/
def sessionIsActiveSpec (s : JVal) : Bool :=
  pyIsFalse ((sessionField s "PlayState" "IsPaused").getD JVal.jnull)
    && pyIsVideo ((sessionField s "NowPlayingItem" "MediaType").getD JVal.jnull)

/-- Spec-side count for C3: the number of sessions satisfying the active
conjunction. -/
def specActiveCount (sessions : List JVal) : Nat :=
  sessions.countP sessionIsActiveSpec

/-- A session is well-shaped when it is a mapping and its `PlayState` and
`NowPlayingItem` fields, where present, are mappings, so that the probe's
field accesses cannot raise. -/
def sessionWellShaped (s : JVal) : Bool :=
  match s with
  | .jobj fields =>
      (match fields.lookup "PlayState" with
       | some (.jobj _) => true
       | some _ => false
       | none => true)
      &&
      (match fields.lookup "NowPlayingItem" with
       | some (.jobj _) => true
       | some _ => false
       | none => true)
  | _ => false

/-- A session used in concrete scenarios: unpaused video playback. -/
def cexActiveSession : JVal :=
  JVal.jobj [("PlayState", JVal.jobj [("IsPaused", JVal.jbool false)]),
             ("NowPlayingItem", JVal.jobj [("MediaType", JVal.jstr "Video")])]

/-- A session whose `PlayState` field is a JSON null: the probe's
`play_state.get` then raises `AttributeError`. -/
def cexNullPlayState : JVal := JVal.jobj [("PlayState", JVal.jnull)]

/-- The controller's `prev_state` variable: `None` at startup (`unknown`),
then `"paused"` or `"running"`. -/
inductive PrevState where
  | unknown : PrevState
  | paused : PrevState
  | running : PrevState
deriving DecidableEq

/-- A command pair emitted by one loop iteration: `pausePair` is
`tdarr_toggle_nodes(pause=True)` followed by `tdarr_cancel_active_workers()`;
`resumePair` is `tdarr_toggle_nodes(pause=False)` followed by
`tdarr_requeue_paused_errors()`. -/
inductive LoopCommand where
  | pausePair : LoopCommand
  | resumePair : LoopCommand
deriving DecidableEq

/-- One iteration of the `while True` loop in `main`, given the previous state
and this poll's activity count: returns the emitted command pair (if any) and
the new state. -/
def loopStep (prev : PrevState) (playing : Nat) : Option LoopCommand × PrevState :=
  if playing > 0 ∧ prev ≠ PrevState.paused then (some LoopCommand.pausePair, PrevState.paused)
  else if playing = 0 ∧ prev ≠ PrevState.running then (some LoopCommand.resumePair, PrevState.running)
  else (none, prev)

/-- The loop run over a finite sequence of per-poll activity counts, recording
the command pair emitted at each poll index. -/
def loopRun : PrevState → List Nat → List (Option LoopCommand)
  | _, [] => []
  | prev, a :: rest =>
      ((loopStep prev a).1) :: loopRun (loopStep prev a).2 rest

/-- The controller state after processing a sequence of counts. -/
def loopStateAfter (prev : PrevState) (counts : List Nat) : PrevState :=
  counts.foldl (fun s a => (loopStep s a).2) prev

/-- The controller state just before poll index `i` of a run started in the
initial `unknown` state. -/
def stateBefore (counts : List Nat) (i : Nat) : PrevState :=
  loopStateAfter PrevState.unknown (counts.take i)

/-- A cancellation request as posted to `/api/v2/cancel-worker-item`. -/
structure CancelReq where
  nodeID : String
  workerID : String
  cause : String
deriving DecidableEq

/-- Outcome of the `get-nodes` request in `tdarr_cancel_active_workers`. -/
inductive NodesOutcome where
  | requestError : NodesOutcome
  | jsonError : NodesOutcome
  | ok : JVal → NodesOutcome

/-- Whether a worker snapshot is active: its `file` key is present and not
null (`worker_details.get('file') is not None`). -/
def workerHasFile (wfields : List (String × JVal)) : Bool :=
  match wfields.lookup "file" with
  | some JVal.jnull => false
  | some _ => true
  | none => false

/-- The inner worker loop of `tdarr_cancel_active_workers` for one node:
issues one cancel request (tagged with the marker cause) per active worker
and counts the requests whose response succeeds; a non-mapping worker entry
is skipped, and a failed cancel is caught per worker.  `cancelOk` gives each
cancel request's outcome. -/
def cancelWorkersOnNode (node_id : String) (cancelOk : String → String → Bool) :
    List (String × JVal) → List CancelReq × Nat
  | [] => ([], 0)
  | (worker_id, worker_details) :: rest =>
      let t := cancelWorkersOnNode node_id cancelOk rest
      match worker_details with
      | JVal.jobj wfields =>
          if workerHasFile wfields then
            (⟨node_id, worker_id, TDARR_CANCEL_CAUSE⟩ :: t.1,
             (if cancelOk node_id worker_id then 1 else 0) + t.2)
          else t
      | _ => t

/-- The outer node loop of `tdarr_cancel_active_workers`: a non-mapping node
entry, or a node without a `workers` mapping, is skipped. -/
def cancelOverNodes (cancelOk : String → String → Bool) :
    List (String × JVal) → List CancelReq × Nat
  | [] => ([], 0)
  | (node_id, node_info) :: rest =>
      let t := cancelOverNodes cancelOk rest
      match node_info with
      | JVal.jobj nfields =>
          match nfields.lookup "workers" with
          | some (JVal.jobj workers) =>
              let n := cancelWorkersOnNode node_id cancelOk workers
              (n.1 ++ t.1, n.2 + t.2)
          | _ => t
      | _ => t

/-- `tdarr_cancel_active_workers`: the cancel requests issued and the
`cancelled_count` the function accumulates (the Python function itself
returns `None`; the count is only logged).  A failed or undecodable
`get-nodes` response, or a non-mapping payload, processes nothing. -/
def tdarr_cancel_active_workers (o : NodesOutcome) (cancelOk : String → String → Bool) :
    List CancelReq × Nat :=
  match o with
  | .requestError => ([], 0)
  | .jsonError => ([], 0)
  | .ok data =>
      match data with
      | JVal.jobj nodes => cancelOverNodes cancelOk nodes
      | _ => ([], 0)

/-- Spec-side for C5, one node: the worker ids of the node's workers whose
file reference is present and non-null, skipping malformed entries. -/
def specNodeWorkers (node_id : String) (ws : List (String × JVal)) : List (String × String) :=
  ws.filterMap (fun w =>
    match w.2 with
    | JVal.jobj wfields => if workerHasFile wfields then some (node_id, w.1) else none
    | _ => none)

/-- Spec-side for C5: the (nodeId, workerId) pairs of all workers active at
snapshot time, in snapshot order, with malformed node or worker entries
skipped. -/
def specActiveWorkers (data : JVal) : List (String × String) :=
  match data with
  | JVal.jobj nodes =>
      (nodes.map (fun n =>
        match n.2 with
        | JVal.jobj nfields =>
            match nfields.lookup "workers" with
            | some (JVal.jobj ws) => specNodeWorkers n.1 ws
            | _ => []
        | _ => [])).flatten
  | _ => []

/-- A one-node, one-active-worker snapshot used in concrete scenarios. -/
def cexNodesData : JVal :=
  JVal.jobj [("node1", JVal.jobj [("workers", JVal.jobj
      [("worker1", JVal.jobj [("file", JVal.jstr "/media/movie.mkv")])])])]

/-- A `cruddb` update request body as posted by the script. -/
structure CrudUpdate where
  collection : String
  mode : String
  docID : String
  obj : List (String × JVal)

/-- Outcome of one `cruddb` POST inside the requeue loop: success, a
`RequestException`, or any other exception; the loop's handlers catch both
error kinds and only log. -/
inductive PostOutcome where
  | ok : PostOutcome
  | requestError : PostOutcome
  | otherError : PostOutcome

/-- The two update bodies `tdarr_requeue_file_by_id` builds from a single
timestamp sample `now_ms`. -/
def requeueUpdates (file_id : String) (now_ms : Int) : List CrudUpdate :=
  [ ⟨"FileJSONDB", "update", file_id, [("lastUpdate", JVal.jnum now_ms)]⟩,
    ⟨"FileJSONDB", "update", file_id,
      [("TranscodeDecisionMaker", JVal.jstr "Queued"), ("createdAt", JVal.jnum now_ms)]⟩ ]

/-- The `for update in updates` loop: posts each update in order; both
handlers only log, so the loop continues regardless of each POST's outcome.
Returns the sequence of updates actually posted. -/
def postUpdatesLoop (out : Nat → PostOutcome) : Nat → List CrudUpdate → List CrudUpdate
  | _, [] => []
  | k, u :: rest =>
      match out k with
      | PostOutcome.ok => u :: postUpdatesLoop out (k + 1) rest
      | PostOutcome.requestError => u :: postUpdatesLoop out (k + 1) rest
      | PostOutcome.otherError => u :: postUpdatesLoop out (k + 1) rest

/-- `tdarr_requeue_file_by_id`: samples the clock once
(`now_ms = int(time.time() * 1000)`), builds both updates from that single
sample, and posts them in order.  `clock k` is the value a k-th time sample
would give, so a second sample would read `clock 1`. -/
def tdarr_requeue_file_by_id (file_id : String) (clock : Nat → Int)
    (out : Nat → PostOutcome) : List CrudUpdate :=
  postUpdatesLoop out 0 (requeueUpdates file_id (clock 0))

/-- A table3 row already extracted as a record: the three fields the scan
reads via `row.get`, with an absent (or null) field as `none`.  This is the
parsed-row layer used by the per-row lemmas; the scan itself
(`tdarr_requeue_paused_errors` below) iterates raw `JVal` rows, because a
non-mapping array element makes `row.get` raise outside the per-row `try`
and aborts the whole scan. -/
structure ErrRow where
  footprintId : Option String
  fileId : Option String
  dbId : Option String
deriving DecidableEq

/-- Python truthiness of an optional string: `None` and `""` are falsy. -/
def pyTruthyStr : Option String → Bool
  | some s => !(s == "")
  | none => false

/-- `all([fp_id, file_id, db_id])`: every identifying field present and
non-empty. -/
def rowFieldsOk (r : ErrRow) : Bool :=
  pyTruthyStr r.footprintId && pyTruthyStr r.fileId && pyTruthyStr r.dbId

/-- Outcome of a per-row fetch: an error (a `RequestException`, or any
exception while decoding or reading the response, all caught by the per-row
handlers) or a decoded value. -/
inductive Fetch (α : Type) where
  | err : Fetch α
  | ok : α → Fetch α

/-- The per-row collaborators of the reconciliation scan:
`listReports footprintId` models `/api/v2/list-footprintId-reports` and
`readReport footprintId jobId jobFileId` models `/api/v2/read-job-file`
(returning the `text` field, `""` when absent). -/
structure ReconcileEnv where
  listReports : String → Fetch (List String)
  readReport : String → String → String → Fetch String

/-- Insertion into a sorted list of strings, ascending lexicographic order. -/
def insertLe (x : String) : List String → List String
  | [] => [x]
  | y :: ys => if x ≤ y then x :: y :: ys else y :: insertLe x ys

/-- `sorted(...)` on a list of strings. -/
def sortStrings : List String → List String
  | [] => []
  | x :: xs => insertLe x (sortStrings xs)

/-- `sorted(rpt_files)[-1]`: the lexicographically-last report name. -/
def lastSorted (files : List String) : String := (sortStrings files).getLastD ""

/-- Whether a character list starts with another. -/
def charsStartWith : List Char → List Char → Bool
  | _, [] => true
  | [], _ :: _ => false
  | c :: cs, d :: ds => c == d && charsStartWith cs ds

/-- Whether a character list occurs somewhere in another. -/
def charsContain : List Char → List Char → Bool
  | [], p => p.isEmpty
  | c :: rest, p => charsStartWith (c :: rest) p || charsContain rest p

/-- Python `pat in text` on strings: substring containment. -/
def strContains (text pat : String) : Bool := charsContain text.toList pat.toList

/-- The body of the `for row in rows` loop up to the requeue decision, on a
row already extracted as a record: skip when an identifying field is missing
or empty, when listing reports fails, when no reports exist, when reading
the lexicographically-last report fails, or when its text lacks the marker;
otherwise the row is re-queued. -/
def processRow (env : ReconcileEnv) (row : ErrRow) : Bool :=
  if rowFieldsOk row then
    match env.listReports (row.footprintId.getD "") with
    | Fetch.err => false
    | Fetch.ok rpt_files =>
        if rpt_files.isEmpty then false
        else
          match env.readReport (row.footprintId.getD "") (row.fileId.getD "")
              (lastSorted rpt_files) with
          | Fetch.err => false
          | Fetch.ok rpt_text => strContains rpt_text TDARR_CANCEL_CAUSE
  else false

/-- The scan's per-row processing over rows already extracted as records:
returns the rows re-queued (in order) and the `cruddb` updates their
requeues posted.  `clock` and `rout` give each row's requeue-time clock
samples and POST outcomes.  This is the parsed-row layer; the raw scan
`tdarr_requeue_paused_errors` agrees with it row by row on rows that are
mappings (the decision per mapping row is the same), but also carries the
abort path that a non-mapping row triggers. -/
def scanParsedRows (env : ReconcileEnv)
    (clock : ErrRow → Nat → Int) (rout : ErrRow → Nat → PostOutcome) :
    List ErrRow → List ErrRow × List CrudUpdate
  | [] => ([], [])
  | row :: rest =>
      let t := scanParsedRows env clock rout rest
      if processRow env row then
        (row :: t.1,
         tdarr_requeue_file_by_id (row.fileId.getD "") (clock row) (rout row) ++ t.2)
      else t

/-- Python truthiness of a JSON value, for `all([fp_id, file_id, db_id])`:
`None`, `False`, `0`, `""`, `[]` and `{}` are falsy. -/
def pyTruthy : JVal → Bool
  | JVal.jnull => false
  | JVal.jbool b => b
  | JVal.jstr s => !(s == "")
  | JVal.jnum n => !(n == 0)
  | JVal.jarr xs => !xs.isEmpty
  | JVal.jobj fs => !fs.isEmpty

/-- Whether a decoded array element is a mapping. -/
def rowIsObj : JVal → Bool
  | JVal.jobj _ => true
  | _ => false

/-- The value `row.get key` yields on a mapping row, with Python `None`
(absent or null) as `jnull`; on a non-mapping row the real `.get` raises —
this total read is the spec-side view of the field. -/
def rawRowField (row : JVal) (key : String) : JVal :=
  match row with
  | JVal.jobj fields => (fields.lookup key).getD JVal.jnull
  | _ => JVal.jnull

/-- The per-row collaborators of the scan keyed by the raw field values the
source forwards verbatim: `listReports fp_id` models
`/api/v2/list-footprintId-reports` and `readReport fp_id file_id jobFileId`
models `/api/v2/read-job-file` (returning the `text` field, `""` when
absent). -/
structure RawReconcileEnv where
  listReports : JVal → Fetch (List String)
  readReport : JVal → JVal → String → Fetch String

/-- The per-row `try` block of the scan on the raw field values: skip when
listing reports fails, when no reports exist, when reading the
lexicographically-last report fails, or when its text lacks the marker;
otherwise the row is re-queued. -/
def processRawRow (env : RawReconcileEnv) (fp_id file_id : JVal) : Bool :=
  match env.listReports fp_id with
  | Fetch.err => false
  | Fetch.ok rpt_files =>
      if rpt_files.isEmpty then false
      else
        match env.readReport fp_id file_id (lastSorted rpt_files) with
        | Fetch.err => false
        | Fetch.ok rpt_text => strContains rpt_text TDARR_CANCEL_CAUSE

/-- `tdarr_requeue_paused_errors` over the raw decoded table3 rows: returns
the rows for which `tdarr_requeue_file_by_id` is called, in order.  The
field reads (`row.get`) happen before the per-row `try`, so a non-mapping
row raises `AttributeError` there; only the function-level handler catches
it, ending the scan, so every later row is dropped.  Per-row fetch errors
inside the `try` skip just their row. -/
def tdarr_requeue_paused_errors (env : RawReconcileEnv) : List JVal → List JVal
  | [] => []
  | row :: rest =>
      match pyDictGetD row "footprintId" JVal.jnull,
            pyDictGetD row "_id" JVal.jnull,
            pyDictGetD row "DB" JVal.jnull with
      | Except.ok fp_id, Except.ok file_id, Except.ok db_id =>
          if pyTruthy fp_id && pyTruthy file_id && pyTruthy db_id then
            if processRawRow env fp_id file_id then
              row :: tdarr_requeue_paused_errors env rest
            else tdarr_requeue_paused_errors env rest
          else tdarr_requeue_paused_errors env rest
      | _, _, _ => []

/-- Spec-side condition for C2, following the spec's words: all three
identifying fields present and non-empty (truthy), the report listing
non-empty, and the text of the lexicographically-last report present and
containing the cancellation marker. -/
def specRequeueCondRaw (env : RawReconcileEnv) (row : JVal) : Prop :=
  pyTruthy (rawRowField row "footprintId") = true
  ∧ pyTruthy (rawRowField row "_id") = true
  ∧ pyTruthy (rawRowField row "DB") = true
  ∧ ∃ files, env.listReports (rawRowField row "footprintId") = Fetch.ok files
      ∧ files ≠ []
      ∧ ∃ text, env.readReport (rawRowField row "footprintId") (rawRowField row "_id")
            (lastSorted files) = Fetch.ok text
          ∧ strContains text TDARR_CANCEL_CAUSE = true

/-- A raw environment whose single report's text is exactly the cancellation
marker. -/
def cexRawEnv : RawReconcileEnv :=
  ⟨fun _ => Fetch.ok ["report1"], fun _ _ _ => Fetch.ok TDARR_CANCEL_CAUSE⟩

/-- A fully populated, marker-matching raw table3 row. -/
def cexGoodRow : JVal :=
  JVal.jobj [("footprintId", JVal.jstr "fp1"), ("_id", JVal.jstr "file1"),
             ("DB", JVal.jstr "table1")]

/-- A row fails its fetches when its fields are fine but listing its reports
errors, or reports exist and reading the selected one errors. -/
def rowFetchFails (env : ReconcileEnv) (row : ErrRow) : Bool :=
  rowFieldsOk row &&
    (match env.listReports (row.footprintId.getD "") with
     | Fetch.err => true
     | Fetch.ok files =>
         !files.isEmpty &&
           (match env.readReport (row.footprintId.getD "") (row.fileId.getD "")
               (lastSorted files) with
            | Fetch.err => true
            | Fetch.ok _ => false))

/-- The scan's whole decision for one mapping row: the three raw fields are
truthy and the per-row `try` matches the marker. -/
def rawRowDecision (env : RawReconcileEnv) (row : JVal) : Bool :=
  pyTruthy (rawRowField row "footprintId") && pyTruthy (rawRowField row "_id")
    && pyTruthy (rawRowField row "DB")
    && processRawRow env (rawRowField row "footprintId") (rawRowField row "_id")

/-- A fully populated parsed error-table row used in concrete scenarios. -/
def wRow : ErrRow := ⟨some "fp1", some "file1", some "table1"⟩

/-- `pyDictGetD` on an actual mapping never raises and behaves like
`Option.getD` over the association list. -/
theorem pyDictGetD_obj (fields : List (String × JVal)) (key : String) (dflt : JVal) :
    pyDictGetD (JVal.jobj fields) key dflt = Except.ok ((fields.lookup key).getD dflt) := by
  cases h : fields.lookup key <;> simp [pyDictGetD, h]

/-- On a well-shaped session the probe's per-session decision never raises and
agrees with the spec predicate. -/
theorem sessionActive_wellShaped (s : JVal) (h : sessionWellShaped s = true) :
    sessionActive s = Except.ok (sessionIsActiveSpec s) := by
  cases s with
  | jobj fields =>
      rcases hps : fields.lookup "PlayState" with _ | vps <;>
        rcases hnp : fields.lookup "NowPlayingItem" with _ | vnp <;>
          simp only [sessionWellShaped, hps, hnp, Bool.and_eq_true] at h <;>
          simp only [sessionActive, sessionIsActiveSpec, sessionField, pyDictGetD_obj,
            bind, Except.bind, pure, Except.pure, hps, hnp]
      · simp [pyDictGetD_obj]
      · cases vnp <;> simp_all [pyDictGetD_obj]
      · cases vps <;> simp_all [pyDictGetD_obj]
      · cases vps <;> cases vnp <;> simp_all [pyDictGetD_obj]
  | jnull => simp [sessionWellShaped] at h
  | jbool b => simp [sessionWellShaped] at h
  | jstr t => simp [sessionWellShaped] at h
  | jnum n => simp [sessionWellShaped] at h
  | jarr xs => simp [sessionWellShaped] at h

/-- On a list of well-shaped sessions the probe's loop returns the spec count. -/
theorem countActiveList_wellShaped (sessions : List JVal)
    (h : ∀ s ∈ sessions, sessionWellShaped s = true) :
    countActiveList sessions = Except.ok (specActiveCount sessions) := by
  induction sessions with
  | nil => simp [countActiveList, specActiveCount]
  | cons s rest ih =>
      have hs : sessionWellShaped s = true := h s (List.mem_cons_self s rest)
      have hrest : ∀ t ∈ rest, sessionWellShaped t = true :=
        fun t ht => h t (List.mem_cons_of_mem s ht)
      simp [countActiveList, sessionActive_wellShaped s hs, ih hrest,
        specActiveCount, List.countP_cons]
      cases sessionIsActiveSpec s <;> (simp; try omega)

/-- C3 (amended): for every payload whose session records are well-shaped
mappings (PlayState and NowPlayingItem, where present, are mappings), the
probe counts a session as active iff its IsPaused is exactly the boolean
false and its MediaType is exactly the string "Video", and returns the number
of sessions satisfying that conjunction.  The well-shapedness hypothesis is
forced by the counterexample: a null PlayState makes the probe's blanket
exception handler return 0 for the whole call. -/
theorem jelly_active_counts_spec (sessions : List JVal)
    (h : ∀ s ∈ sessions, sessionWellShaped s = true) :
    jelly_active (ProbeOutcome.ok (JVal.jarr sessions)) = specActiveCount sessions := by
  simp [jelly_active, jellyBodyCount, countActiveList_wellShaped sessions h]

/-- C3 counterexample: with one genuinely active session and one session whose
PlayState is null, the probe returns 0 while exactly one session satisfies
the active conjunction, so the count does not equal the number of sessions
satisfying it. -/
theorem jelly_active_cex :
    jelly_active (ProbeOutcome.ok (JVal.jarr [cexActiveSession, cexNullPlayState])) = 0
      ∧ specActiveCount [cexActiveSession, cexNullPlayState] = 1
      ∧ ¬ jelly_active (ProbeOutcome.ok (JVal.jarr [cexActiveSession, cexNullPlayState]))
            = specActiveCount [cexActiveSession, cexNullPlayState] :=
  ⟨by decide, by decide, by decide⟩

/-- Witness for the amended C3 theorem at a concrete one-session payload. -/
theorem jelly_active_counts_spec_witness :
    (∀ s ∈ [cexActiveSession], sessionWellShaped s = true)
      ∧ jelly_active (ProbeOutcome.ok (JVal.jarr [cexActiveSession]))
          = specActiveCount [cexActiveSession] :=
  ⟨by decide, jelly_active_counts_spec [cexActiveSession] (by decide)⟩

/-- C4: the probe returns 0 on every failure outcome — request errors
(network failure, timeout, HTTP error status), undecodable bodies, and
decoded payloads of unexpected shape — instead of propagating the error. -/
theorem jelly_active_failure_is_zero (o : ProbeOutcome) (h : probeFailed o = true) :
    jelly_active o = 0 := by
  cases o with
  | requestError => rfl
  | jsonError => rfl
  | ok payload =>
      simp [probeFailed] at h
      simp [jelly_active]
      cases hb : jellyBodyCount payload with
      | error e => simp
      | ok n => rw [hb] at h; simp at h

/-- Witness for C4 at the request-error outcome. -/
theorem jelly_active_failure_is_zero_witness :
    probeFailed ProbeOutcome.requestError = true
      ∧ jelly_active ProbeOutcome.requestError = 0 :=
  ⟨rfl, jelly_active_failure_is_zero ProbeOutcome.requestError rfl⟩

/-- After one iteration the state is determined by this poll's count alone:
paused when positive, running when zero. -/
theorem loopStep_snd (s : PrevState) (a : Nat) :
    (loopStep s a).2 = if 0 < a then PrevState.paused else PrevState.running := by
  rcases Nat.eq_zero_or_pos a with h | h
  · subst h; cases s <;> simp [loopStep]
  · have h0 : a ≠ 0 := Nat.pos_iff_ne_zero.mp h
    cases s <;> simp [loopStep, h, h0]

/-- One iteration emits the pause pair iff the count is positive and the state
is not already paused. -/
theorem loopStep_pause_iff (s : PrevState) (a : Nat) :
    (loopStep s a).1 = some LoopCommand.pausePair ↔ 0 < a ∧ s ≠ PrevState.paused := by
  rcases Nat.eq_zero_or_pos a with h | h
  · subst h; cases s <;> simp [loopStep]
  · have h0 : a ≠ 0 := Nat.pos_iff_ne_zero.mp h
    cases s <;> simp [loopStep, h, h0]

/-- One iteration emits the resume pair iff the count is zero and the state is
not already running. -/
theorem loopStep_resume_iff (s : PrevState) (a : Nat) :
    (loopStep s a).1 = some LoopCommand.resumePair ↔ a = 0 ∧ s ≠ PrevState.running := by
  rcases Nat.eq_zero_or_pos a with h | h
  · subst h; cases s <;> simp [loopStep]
  · have h0 : a ≠ 0 := Nat.pos_iff_ne_zero.mp h
    cases s <;> simp [loopStep, h, h0]

/-- The run emits one (possibly empty) command slot per poll. -/
theorem loopRun_length (s : PrevState) (counts : List Nat) :
    (loopRun s counts).length = counts.length := by
  induction counts generalizing s with
  | nil => rfl
  | cons a rest ih => simp [loopRun, ih]

/-- The command at poll index i is the one `loopStep` emits from the state
reached after the first i polls. -/
theorem loopRun_getD (s : PrevState) (counts : List Nat) (i : Nat) (hi : i < counts.length) :
    (loopRun s counts).getD i none
      = (loopStep (loopStateAfter s (counts.take i)) (counts.getD i 0)).1 := by
  induction counts generalizing s i with
  | nil => simp at hi
  | cons a rest ih =>
      cases i with
      | zero => simp [loopRun, loopStateAfter]
      | succ j =>
          have hj : j < rest.length := by simpa using hi
          have hrec := ih (loopStep s a).2 j hj
          simp [loopRun, loopStateAfter, List.take] at hrec ⊢
          exact hrec

/-- Unfolding one step of the state fold over a prefix of the counts. -/
theorem loopStateAfter_take_succ (s : PrevState) (counts : List Nat) (i : Nat)
    (hi : i < counts.length) :
    loopStateAfter s (counts.take (i + 1))
      = (loopStep (loopStateAfter s (counts.take i)) (counts.getD i 0)).2 := by
  induction counts generalizing s i with
  | nil => simp at hi
  | cons a rest ih =>
      cases i with
      | zero => simp [List.take, loopStateAfter]
      | succ j =>
          have hj : j < rest.length := by simpa using hi
          have hrec := ih (loopStep s a).2 j hj
          simp [List.take, loopStateAfter] at hrec ⊢
          exact hrec

/-- The state before poll i+1 is the state before poll i advanced by count i. -/
theorem stateBefore_succ (counts : List Nat) (i : Nat) (hi : i < counts.length) :
    stateBefore counts (i + 1)
      = (loopStep (stateBefore counts i) (counts.getD i 0)).2 :=
  loopStateAfter_take_succ PrevState.unknown counts i hi

/-- C1: starting from the Unknown state, a pause pair is emitted exactly at
the indices where the count is positive and the state is not Paused, a resume
pair exactly where the count is zero and the state is not Running; two
consecutive polls on the same side of zero never both emit (so a maximal
same-signed run emits at most one pair, at its first index), and a nonempty
run always emits a pair at index 0 because the initial state is Unknown. -/
theorem controller_edge_triggered (counts : List Nat) :
    (∀ i, i < counts.length →
      (((loopRun PrevState.unknown counts).getD i none = some LoopCommand.pausePair)
        ↔ (0 < counts.getD i 0 ∧ stateBefore counts i ≠ PrevState.paused))
      ∧ (((loopRun PrevState.unknown counts).getD i none = some LoopCommand.resumePair)
        ↔ (counts.getD i 0 = 0 ∧ stateBefore counts i ≠ PrevState.running)))
    ∧ (∀ i, i + 1 < counts.length →
        (0 < counts.getD i 0 ↔ 0 < counts.getD (i + 1) 0) →
        (loopRun PrevState.unknown counts).getD (i + 1) none = none)
    ∧ (counts ≠ [] →
        (loopRun PrevState.unknown counts).getD 0 none
          = some (if 0 < counts.getD 0 0 then LoopCommand.pausePair
                  else LoopCommand.resumePair)) := by
  refine ⟨?_, ?_, ?_⟩
  · intro i hi
    rw [loopRun_getD PrevState.unknown counts i hi]
    exact ⟨loopStep_pause_iff _ _, loopStep_resume_iff _ _⟩
  · intro i hi hsame
    have hi1 : i < counts.length := Nat.lt_of_succ_lt hi
    rw [loopRun_getD PrevState.unknown counts (i + 1) hi]
    have hstate : loopStateAfter PrevState.unknown (counts.take (i + 1))
        = if 0 < counts.getD i 0 then PrevState.paused else PrevState.running := by
      rw [loopStateAfter_take_succ PrevState.unknown counts i hi1, loopStep_snd]
    by_cases hpos : 0 < counts.getD i 0
    · have hpos2 : 0 < counts.getD (i + 1) 0 := hsame.mp hpos
      have h0 : counts.getD (i + 1) 0 ≠ 0 := Nat.pos_iff_ne_zero.mp hpos2
      have hp : loopStateAfter PrevState.unknown (List.take (i + 1) counts)
          = PrevState.paused := by rw [hstate, if_pos hpos]
      rw [hp]
      have h0p : counts[i + 1]?.getD 0 ≠ 0 := by simpa [List.getD] using h0
      simp [loopStep, h0p]
    · have hz : counts.getD (i + 1) 0 = 0 := by
        by_contra hne
        exact hpos (hsame.mpr (Nat.pos_of_ne_zero hne))
      have hr : loopStateAfter PrevState.unknown (List.take (i + 1) counts)
          = PrevState.running := by rw [hstate, if_neg hpos]
      rw [hr]
      have hzp : counts[i + 1]?.getD 0 = 0 := by simpa [List.getD] using hz
      simp [loopStep, hzp]
  · intro hne
    match counts, hne with
    | a :: rest, _ =>
      rcases Nat.eq_zero_or_pos a with h | h
      · subst h; simp [loopRun, loopStep]
      · have h0 : a ≠ 0 := Nat.pos_iff_ne_zero.mp h
        simp [loopRun, loopStep, h, h0]

/-- Witness for C1 on the concrete count sequence [2, 2, 0]. -/
theorem controller_edge_triggered_witness :
    (loopRun PrevState.unknown [2, 2, 0]).getD 0 none = some LoopCommand.pausePair
    ∧ (loopRun PrevState.unknown [2, 2, 0]).getD 1 none = none
    ∧ (loopRun PrevState.unknown [2, 2, 0]).getD 0 none
        = some (if 0 < List.getD [2, 2, 0] 0 0 then LoopCommand.pausePair
                else LoopCommand.resumePair) :=
  ⟨((controller_edge_triggered [2, 2, 0]).1 0 (by decide)).1.mpr (by decide),
   (controller_edge_triggered [2, 2, 0]).2.1 0 (by decide) (by decide),
   (controller_edge_triggered [2, 2, 0]).2.2 (by decide)⟩

/-- The requests issued for one node's workers are exactly one per active
worker, tagged with the marker cause, independent of cancel outcomes. -/
theorem cancelWorkersOnNode_fst (node_id : String) (f : String → String → Bool)
    (ws : List (String × JVal)) :
    (cancelWorkersOnNode node_id f ws).1
      = (specNodeWorkers node_id ws).map (fun p => CancelReq.mk p.1 p.2 TDARR_CANCEL_CAUSE) := by
  induction ws with
  | nil => rfl
  | cons w rest ih =>
      obtain ⟨worker_id, worker_details⟩ := w
      cases worker_details <;>
        simp [cancelWorkersOnNode, specNodeWorkers, ih, List.filterMap_cons]
      case jobj wfields =>
        cases h : workerHasFile wfields <;>
          (simp [h, specNodeWorkers] at ih ⊢; try exact ih)

/-- The requests issued over all nodes are exactly one per active worker in
the snapshot, tagged with the marker cause. -/
theorem cancelOverNodes_fst (f : String → String → Bool) (nodes : List (String × JVal)) :
    (cancelOverNodes f nodes).1
      = (specActiveWorkers (JVal.jobj nodes)).map
          (fun p => CancelReq.mk p.1 p.2 TDARR_CANCEL_CAUSE) := by
  induction nodes with
  | nil => rfl
  | cons n rest ih =>
      obtain ⟨node_id, node_info⟩ := n
      cases node_info <;> simp [cancelOverNodes, specActiveWorkers] at ih ⊢ <;> try exact ih
      case jobj nfields =>
        cases hw : nfields.lookup "workers" with
        | none => simp [hw]; exact ih
        | some wv =>
            cases wv <;> simp [hw] <;> try exact ih
            case jobj ws => simp [cancelWorkersOnNode_fst, ih]

/-- For one node, the accumulated count equals the number of issued requests
whose cancel succeeded. -/
theorem cancelWorkersOnNode_snd (node_id : String) (f : String → String → Bool)
    (ws : List (String × JVal)) :
    (cancelWorkersOnNode node_id f ws).2
      = ((cancelWorkersOnNode node_id f ws).1.filter
          (fun r => f r.nodeID r.workerID)).length := by
  induction ws with
  | nil => rfl
  | cons w rest ih =>
      obtain ⟨worker_id, worker_details⟩ := w
      cases worker_details <;> simp [cancelWorkersOnNode] <;> try exact ih
      case jobj wfields =>
        cases h : workerHasFile wfields <;> simp [h] <;> try exact ih
        cases hf : f node_id worker_id <;> (simp [hf, List.filter_cons, ih]; try omega)

/-- Over all nodes, the accumulated count equals the number of issued
requests whose cancel succeeded. -/
theorem cancelOverNodes_snd (f : String → String → Bool) (nodes : List (String × JVal)) :
    (cancelOverNodes f nodes).2
      = ((cancelOverNodes f nodes).1.filter (fun r => f r.nodeID r.workerID)).length := by
  induction nodes with
  | nil => rfl
  | cons n rest ih =>
      obtain ⟨node_id, node_info⟩ := n
      cases node_info <;> simp [cancelOverNodes] <;> try exact ih
      case jobj nfields =>
        cases hw : nfields.lookup "workers" with
        | none => simp [hw]; exact ih
        | some wv =>
            cases wv <;> simp [hw] <;> try exact ih
            case jobj ws =>
              simp [List.filter_append, cancelWorkersOnNode_snd node_id f ws, ih]

/-- C5: for every nodes snapshot, the cancellation pass issues exactly one
cancel request, tagged with the marker cause, per worker whose file attribute
is present and non-null, and none for the others; malformed node or worker
entries are skipped without affecting the rest, and the issued requests do
not depend on individual cancel outcomes (one worker's failure does not
prevent attempting the others). -/
theorem cancel_requests_exact (data : JVal) (cancelOk : String → String → Bool) :
    (tdarr_cancel_active_workers (NodesOutcome.ok data) cancelOk).1
      = (specActiveWorkers data).map (fun p => CancelReq.mk p.1 p.2 TDARR_CANCEL_CAUSE)
    ∧ ∀ g, (tdarr_cancel_active_workers (NodesOutcome.ok data) cancelOk).1
        = (tdarr_cancel_active_workers (NodesOutcome.ok data) g).1 := by
  constructor
  · cases data <;> simp [tdarr_cancel_active_workers, specActiveWorkers]
    case jobj nodes => simpa [specActiveWorkers] using cancelOverNodes_fst cancelOk nodes
  · intro g
    cases data <;> simp [tdarr_cancel_active_workers]
    case jobj nodes =>
      rw [cancelOverNodes_fst cancelOk nodes, cancelOverNodes_fst g nodes]

/-- C6 (amended): `tdarr_cancel_active_workers` returns None; the
`cancelled_count` it accumulates and logs equals the number of issued cancel
requests whose response succeeded, not the number of requests sent. -/
theorem cancelled_count_is_successes (o : NodesOutcome) (cancelOk : String → String → Bool) :
    (tdarr_cancel_active_workers o cancelOk).2
      = ((tdarr_cancel_active_workers o cancelOk).1.filter
          (fun r => cancelOk r.nodeID r.workerID)).length := by
  cases o with
  | requestError => rfl
  | jsonError => rfl
  | ok data =>
      cases data <;> simp [tdarr_cancel_active_workers]
      case jobj nodes => exact cancelOverNodes_snd cancelOk nodes

/-- C6 counterexample: on a snapshot with one active worker whose cancel
request fails, one request is issued but the accumulated count is 0, so the
count does not equal the number of requests sent (and the Python function's
return value is None, not a count at all). -/
theorem cancelled_count_cex :
    ((tdarr_cancel_active_workers (NodesOutcome.ok cexNodesData) (fun _ _ => false)).1).length = 1
    ∧ (tdarr_cancel_active_workers (NodesOutcome.ok cexNodesData) (fun _ _ => false)).2 = 0
    ∧ ¬ (tdarr_cancel_active_workers (NodesOutcome.ok cexNodesData) (fun _ _ => false)).2
        = ((tdarr_cancel_active_workers (NodesOutcome.ok cexNodesData)
            (fun _ _ => false)).1).length := by
  refine ⟨by decide, by decide, by decide⟩

/-- The posting loop posts every update regardless of each POST's outcome,
because both exception handlers only log. -/
theorem postUpdatesLoop_all (out : Nat → PostOutcome) (k : Nat) (us : List CrudUpdate) :
    postUpdatesLoop out k us = us := by
  induction us generalizing k with
  | nil => rfl
  | cons u rest ih =>
      cases h : out k <;> simp [postUpdatesLoop, h, ih]

/-- C7: for every job identifier, `tdarr_requeue_file_by_id` performs exactly
two mutations, in order: first an update setting only the `lastUpdate`
timestamp, then an update setting `TranscodeDecisionMaker` to "Queued"
together with a `createdAt` timestamp; no other fields are written and no
other requests are issued. -/
theorem requeue_two_updates (file_id : String) (clock : Nat → Int) (out : Nat → PostOutcome) :
    tdarr_requeue_file_by_id file_id clock out
      = [ ⟨"FileJSONDB", "update", file_id, [("lastUpdate", JVal.jnum (clock 0))]⟩,
          ⟨"FileJSONDB", "update", file_id,
            [("TranscodeDecisionMaker", JVal.jstr "Queued"),
             ("createdAt", JVal.jnum (clock 0))]⟩ ] := by
  simp [tdarr_requeue_file_by_id, requeueUpdates, postUpdatesLoop_all]

/-- C9: the posted updates do not depend on the POSTs' outcomes — in
particular the second mutation is still attempted when the first one's POST
fails — and both updates are always posted, with no exception escaping (the
embedding is total over every outcome assignment). -/
theorem requeue_attempts_both (file_id : String) (clock : Nat → Int) (out : Nat → PostOutcome) :
    tdarr_requeue_file_by_id file_id clock out
        = tdarr_requeue_file_by_id file_id clock (fun _ => PostOutcome.ok)
      ∧ (tdarr_requeue_file_by_id file_id clock out).length = 2 := by
  constructor
  · simp [tdarr_requeue_file_by_id, postUpdatesLoop_all]
  · simp [tdarr_requeue_file_by_id, requeueUpdates, postUpdatesLoop_all]

/-- C10: in a single call, the `lastUpdate` value of the first mutation and
the `createdAt` value of the second are the identical timestamp `clock 0`,
sampled once before either request — not two independent samples (a second
sample would have read `clock 1`). -/
theorem requeue_single_timestamp (file_id : String) (clock : Nat → Int)
    (out : Nat → PostOutcome) :
    ∃ u1 u2, tdarr_requeue_file_by_id file_id clock out = [u1, u2]
      ∧ u1.obj.lookup "lastUpdate" = some (JVal.jnum (clock 0))
      ∧ u2.obj.lookup "createdAt" = some (JVal.jnum (clock 0))
      ∧ u1.obj.lookup "lastUpdate" = u2.obj.lookup "createdAt" := by
  refine ⟨⟨"FileJSONDB", "update", file_id, [("lastUpdate", JVal.jnum (clock 0))]⟩,
    ⟨"FileJSONDB", "update", file_id,
      [("TranscodeDecisionMaker", JVal.jstr "Queued"), ("createdAt", JVal.jnum (clock 0))]⟩,
    ?_, ?_, ?_, ?_⟩ <;>
    simp [tdarr_requeue_file_by_id, requeueUpdates, postUpdatesLoop_all, List.lookup]

/-- Merging a nested conditional with a shared else-branch into one condition. -/
theorem ite_nested_and (a b : Bool) (x y : List JVal) :
    (if a then (if b then x else y) else y) = if a && b then x else y := by
  cases a <;> cases b <;> simp

/-- Unfolding the raw scan at a mapping row: the row is kept exactly when
its whole decision holds, and the rest of the rows are still scanned. -/
theorem scan_cons_obj (env : RawReconcileEnv) (fields : List (String × JVal))
    (rest : List JVal) :
    tdarr_requeue_paused_errors env (JVal.jobj fields :: rest)
      = if rawRowDecision env (JVal.jobj fields)
        then JVal.jobj fields :: tdarr_requeue_paused_errors env rest
        else tdarr_requeue_paused_errors env rest := by
  simp only [tdarr_requeue_paused_errors, pyDictGetD_obj, rawRowDecision, rawRowField]
  rw [ite_nested_and]

/-- The whole per-row decision holds iff the spec-side condition does (for a
non-mapping row both sides are false, since its fields read as null). -/
theorem rawRowDecision_iff (env : RawReconcileEnv) (row : JVal) :
    rawRowDecision env row = true ↔ specRequeueCondRaw env row := by
  cases h1 : pyTruthy (rawRowField row "footprintId") with
  | false => simp [rawRowDecision, specRequeueCondRaw, h1]
  | true =>
      cases h2 : pyTruthy (rawRowField row "_id") with
      | false => simp [rawRowDecision, specRequeueCondRaw, h1, h2]
      | true =>
          cases h3 : pyTruthy (rawRowField row "DB") with
          | false => simp [rawRowDecision, specRequeueCondRaw, h1, h2, h3]
          | true =>
              cases hl : env.listReports (rawRowField row "footprintId") with
              | err => simp [rawRowDecision, specRequeueCondRaw, processRawRow,
                  h1, h2, h3, hl]
              | ok files =>
                  cases he : files.isEmpty with
                  | true =>
                      have hfe : files = [] := List.isEmpty_iff.mp he
                      subst hfe
                      simp [rawRowDecision, specRequeueCondRaw, processRawRow, h1, h2, h3, hl]
                  | false =>
                      have hne : files ≠ [] := by
                        intro hc
                        subst hc
                        simp at he
                      cases hr : env.readReport (rawRowField row "footprintId")
                          (rawRowField row "_id") (lastSorted files) with
                      | err => simp [rawRowDecision, specRequeueCondRaw, processRawRow,
                          h1, h2, h3, hl, he, hr]
                      | ok text => simp [rawRowDecision, specRequeueCondRaw, processRawRow,
                          h1, h2, h3, hl, he, hr, hne]

/-- C2 (amended): when every element of the fetched table3 array is a
mapping, a row is re-queued by the reconciliation scan iff all three
identifying fields are present and non-empty, listing its footprint's
reports succeeds with a non-empty listing, and reading the
lexicographically-last report succeeds with text containing the cancellation
marker; in particular no row with a missing field, no reports, or a
marker-less most recent report is ever re-queued.  The mapping hypothesis is
forced by the counterexample: a non-mapping element makes `row.get` raise
outside the per-row `try`, and the function-level handler ends the whole
scan, dropping every later row. -/
theorem requeues_iff_marker (env : RawReconcileEnv) (rows : List JVal) (row : JVal)
    (hrows : ∀ r ∈ rows, rowIsObj r = true) :
    row ∈ tdarr_requeue_paused_errors env rows
      ↔ row ∈ rows ∧ specRequeueCondRaw env row := by
  induction rows with
  | nil => simp [tdarr_requeue_paused_errors]
  | cons r rest ih =>
      have hr : rowIsObj r = true := hrows r (List.mem_cons_self r rest)
      have hrest : ∀ t ∈ rest, rowIsObj t = true :=
        fun t ht => hrows t (List.mem_cons_of_mem r ht)
      obtain ⟨fields, rfl⟩ : ∃ fields, r = JVal.jobj fields := by
        cases r with
        | jobj fields => exact ⟨fields, rfl⟩
        | jnull => simp [rowIsObj] at hr
        | jbool b => simp [rowIsObj] at hr
        | jstr t => simp [rowIsObj] at hr
        | jnum n => simp [rowIsObj] at hr
        | jarr xs => simp [rowIsObj] at hr
      rw [scan_cons_obj]
      cases hd : rawRowDecision env (JVal.jobj fields) with
      | true =>
          simp [List.mem_cons, ih hrest]
          constructor
          · rintro (rfl | ⟨hm, hc⟩)
            · exact ⟨Or.inl rfl, (rawRowDecision_iff env (JVal.jobj fields)).mp hd⟩
            · exact ⟨Or.inr hm, hc⟩
          · rintro ⟨rfl | hm, hc⟩
            · exact Or.inl rfl
            · exact Or.inr ⟨hm, hc⟩
      | false =>
          simp [List.mem_cons, ih hrest]
          intro hc
          rintro rfl
          rw [(rawRowDecision_iff env (JVal.jobj fields)).mpr hc] at hd
          cases hd

/-- Witness for the amended C2: a fully populated mapping row whose most
recent report is the marker itself is re-queued. -/
theorem requeues_iff_marker_witness :
    cexGoodRow ∈ tdarr_requeue_paused_errors cexRawEnv [cexGoodRow] :=
  (requeues_iff_marker cexRawEnv [cexGoodRow] cexGoodRow (by decide)).mpr
    ⟨List.mem_singleton.mpr rfl,
     by decide, by decide, by decide,
     ["report1"], rfl, by decide, TDARR_CANCEL_CAUSE, rfl, by decide⟩

/-- C2 counterexample: with a non-mapping element followed by a fully
populated row whose most recent report contains the marker, the scan aborts
at the non-mapping element (`row.get` raises `AttributeError` outside the
per-row `try`; the function-level handler ends the scan) and re-queues
nothing, so the marker-matching row is not re-queued even though it
satisfies the claimed condition — the claimed iff fails for that row. -/
theorem requeues_iff_marker_cex :
    tdarr_requeue_paused_errors cexRawEnv [JVal.jstr "bad", cexGoodRow] = []
      ∧ specRequeueCondRaw cexRawEnv cexGoodRow
      ∧ ¬ (cexGoodRow ∈ tdarr_requeue_paused_errors cexRawEnv [JVal.jstr "bad", cexGoodRow]
            ↔ cexGoodRow ∈ [JVal.jstr "bad", cexGoodRow]
                ∧ specRequeueCondRaw cexRawEnv cexGoodRow) := by
  refine ⟨rfl, ?_, ?_⟩
  · exact ⟨by decide, by decide, by decide, ["report1"], rfl, by decide,
      TDARR_CANCEL_CAUSE, rfl, by decide⟩
  · intro hiff
    have hmem : cexGoodRow ∈ tdarr_requeue_paused_errors cexRawEnv
        [JVal.jstr "bad", cexGoodRow] :=
      hiff.mpr ⟨List.mem_cons_of_mem _ (List.mem_singleton.mpr rfl),
        by decide, by decide, by decide, ["report1"], rfl, by decide,
        TDARR_CANCEL_CAUSE, rfl, by decide⟩
    have hempty : tdarr_requeue_paused_errors cexRawEnv
        [JVal.jstr "bad", cexGoodRow] = [] := rfl
    rw [hempty] at hmem
    exact List.not_mem_nil cexGoodRow hmem

/-- C8: the scan handles rows independently — the re-queued rows of a
concatenation are the concatenation of the re-queued rows; a row whose
report-listing or report-reading fetch fails contributes nothing while the
remaining rows are still processed; and requeue POST outcomes (absorbed
inside `tdarr_requeue_file_by_id`) never change which rows are processed or
re-queued. -/
theorem scan_isolates_row_failures (env : ReconcileEnv) (clock : ErrRow → Nat → Int)
    (rout : ErrRow → Nat → PostOutcome) (rows1 rows2 : List ErrRow) :
    ((scanParsedRows env clock rout (rows1 ++ rows2)).1
        = (scanParsedRows env clock rout rows1).1
            ++ (scanParsedRows env clock rout rows2).1)
    ∧ (∀ row, rowFetchFails env row = true →
        scanParsedRows env clock rout (row :: rows2)
          = scanParsedRows env clock rout rows2)
    ∧ (∀ rout2 clock2, (scanParsedRows env clock rout rows2).1
        = (scanParsedRows env clock2 rout2 rows2).1) := by
  refine ⟨?_, ?_, ?_⟩
  · induction rows1 with
    | nil => simp [scanParsedRows]
    | cons r rest ih =>
        cases hp : processRow env r <;>
          simp [scanParsedRows, hp, ih]
  · intro row hfail
    have hp : processRow env row = false := by
      unfold rowFetchFails at hfail
      unfold processRow
      cases hok : rowFieldsOk row with
      | false => simp [hok]
      | true =>
          simp only [hok, Bool.true_and] at hfail
          cases hl : env.listReports (row.footprintId.getD "") with
          | err => simp [hok, hl]
          | ok files =>
              rw [hl] at hfail
              cases he : files.isEmpty with
              | true => simp [hok, hl, he]
              | false =>
                  simp only [he, Bool.not_false, Bool.true_and] at hfail
                  cases hr : env.readReport (row.footprintId.getD "")
                      (row.fileId.getD "") (lastSorted files) with
                  | err => simp [hok, hl, he, hr]
                  | ok text => rw [hr] at hfail; cases hfail
    simp [scanParsedRows, hp]
  · intro rout2 clock2
    induction rows2 with
    | nil => rfl
    | cons r rest ih =>
        cases hp : processRow env r <;>
          simp [scanParsedRows, hp, ih]

/-- Witness for C8: a scan whose only row fails its fetches equals the scan
of no rows. -/
theorem scan_isolates_row_failures_witness :
    scanParsedRows
        (ReconcileEnv.mk (fun _ => Fetch.err) (fun _ _ _ => Fetch.err))
        (fun _ _ => 0) (fun _ _ => PostOutcome.ok) [wRow]
      = scanParsedRows
          (ReconcileEnv.mk (fun _ => Fetch.err) (fun _ _ _ => Fetch.err))
          (fun _ _ => 0) (fun _ _ => PostOutcome.ok) [] :=
  ((scan_isolates_row_failures
      (ReconcileEnv.mk (fun _ => Fetch.err) (fun _ _ _ => Fetch.err))
      (fun _ _ => 0) (fun _ _ => PostOutcome.ok) [] []).2.1 wRow (by decide))
